import Mathlib

/-!
Shallow embedding of `TicTacToeAreaController`
(frontend/src/classes/interactable/TicTacToeAreaController.ts) from the
CoveyTown2 repository, together with proofs of the specified properties of
its derivation getters, update protocol and `makeMove` command.

Modelling conventions:
* TypeScript optional values (`T | undefined`) become `Option`.
* JavaScript strict equality `===` between two possibly-undefined strings is
  `Option String` equality (`undefined === undefined` is `true`, which the
  `Option` equality also makes true via `none = none`).
* JavaScript object identity (`===` on `PlayerController` objects) is modelled
  by giving each object a distinct `ref` tag; two `PlayerController` values are
  the same object exactly when they are equal as Lean values.
* JavaScript truthiness of an optional string (`if (x)` / `x && …`) is
  `strTruthy`: false for `undefined` and for the empty string.
* Exceptions become `Except String`; `makeMove`'s call to the external command
  channel is modelled by returning the command it would send, so an `error`
  result means the channel is never invoked.
-/

deriving instance DecidableEq for Except

inductive GameStatus where
  | WAITING_TO_START
  | IN_PROGRESS
  | OVER
deriving DecidableEq, Repr

/-- A game piece, the TypeScript string literal type `'X' | 'O'`. -/
inductive GamePiece where
  | X
  | O
deriving DecidableEq, Repr

abbrev PlayerID := String

/-- One entry of `TicTacToeGameState.moves`; `row`/`col` have the
TypeScript type `TicTacToeGridPosition = 0 | 1 | 2`, i.e. `Fin 3`. -/
structure TicTacToeMove where
  gamePiece : GamePiece
  row : Fin 3
  col : Fin 3
deriving DecidableEq, Repr

/-- The authoritative snapshot `TicTacToeGameState`. -/
structure TicTacToeGameState where
  moves : List TicTacToeMove
  x : Option PlayerID
  o : Option PlayerID
  winner : Option PlayerID
  status : GameStatus
deriving DecidableEq, Repr

/-- A live game instance inside the `GameArea` model (`id` plus its state). -/
structure GameInstance where
  id : String
  state : TicTacToeGameState
deriving DecidableEq, Repr

/-- The part of the `GameArea<TicTacToeGameState>` model the controller reads:
`this._model.game` may be `undefined` when no game is attached. -/
structure GameArea where
  game : Option GameInstance
deriving DecidableEq, Repr

/-- A `PlayerController` object.  `ref` models JavaScript object identity so
that two distinct objects can carry the same player id. -/
structure PlayerController where
  ref : Nat
  id : PlayerID
deriving DecidableEq, Repr

/-- The controller state visible to the getters under verification:
the current model `this._model`, the roster `this.players` maintained by the
base class, the local player `this._townController.ourPlayer`, and the
attached `this._instanceID`. -/
structure ControllerState where
  model : GameArea
  players : List PlayerController
  ourPlayer : Option PlayerController
  instanceID : Option String
deriving DecidableEq, Repr

def PLAYER_NOT_IN_GAME_ERROR : String := "Player is not in game"

def NO_GAME_IN_PROGRESS_ERROR : String := "No game in progress"

/-- `TicTacToeCell = 'X' | 'O' | undefined`. -/
abbrev TicTacToeCell := Option GamePiece

/-- The 3x3 board, indexed by row then column as in the source. -/
abbrev Board := Fin 3 → Fin 3 → TicTacToeCell

def emptyBoard : Board := fun _ _ => none

/-- The assignment `board[r][c] = v` on the board being built. -/
def writeCell (b : Board) (r c : Fin 3) (v : TicTacToeCell) : Board :=
  fun i j => if i = r ∧ j = c then v else b i j

/-- JavaScript truthiness of an optional string: `undefined` and the empty
string are falsy, every other string is truthy. -/
def strTruthy : Option String → Bool
  | none => false
  | some s => !(s == "")

namespace TicTacToeAreaController

/-- The getter `get board()`: start from a fresh all-`undefined` 3x3 array and
replay `this._model.game?.state.moves || []` in order, executing
`board[currMove.row][currMove.col] = currMove.gamePiece` for each move.
(An empty `moves` array is truthy in JavaScript, so only a missing game falls
back to the empty list.) -/
def board (s : ControllerState) : Board :=
  let moves := match s.model.game with
    | some g => g.state.moves
    | none => []
  moves.foldl (fun b m => writeCell b m.row m.col (some m.gamePiece)) emptyBoard

/-- The getter `get x()`: `this.players.find(player => this._model.game?.state.x === player.id)`.
The left-hand side of `===` is `string | undefined`, the right-hand side a
string, so the comparison succeeds only when the game and its `x` field exist. -/
def x (s : ControllerState) : Option PlayerController :=
  s.players.find? (fun p => (s.model.game.bind fun g => g.state.x) == some p.id)

/-- The getter `get o()`, symmetric to `x`. -/
def o (s : ControllerState) : Option PlayerController :=
  s.players.find? (fun p => (s.model.game.bind fun g => g.state.o) == some p.id)

/-- The getter `get moveCount()`: `(this._model.game?.state.moves || []).length`. -/
def moveCount (s : ControllerState) : Nat :=
  (match s.model.game with
    | some g => g.state.moves
    | none => []).length

/-- The getter `get winner()`: find the roster player whose id is the
snapshot's `winner` field. -/
def winner (s : ControllerState) : Option PlayerController :=
  s.players.find? (fun p => (s.model.game.bind fun g => g.state.winner) == some p.id)

/-- The getter `get whoseTurn()`: when the game exists and is `IN_PROGRESS`,
scan `this.players` and return the first player matching
`moveCount % 2 === 0 && gameState.x && player.id === gameState.x`, or the
`else if` branch with odd parity and `gameState.o`; otherwise `undefined`.
`gameState.x && …` is a truthiness guard on the optional id string. -/
def whoseTurn (s : ControllerState) : Option PlayerController :=
  match s.model.game with
  | none => none
  | some g =>
    if g.state.status = GameStatus.IN_PROGRESS then
      s.players.find? (fun p =>
        (decide (moveCount s % 2 = 0) && strTruthy g.state.x
          && ((some p.id : Option String) == g.state.x))
        || (decide (moveCount s % 2 ≠ 0) && strTruthy g.state.o
          && ((some p.id : Option String) == g.state.o)))
    else none

/-- The getter `get isOurTurn()`: `false` when there is no game state or the
status is not `IN_PROGRESS`; otherwise
`this._townController.ourPlayer === this.whoseTurn` (object identity, where
`undefined === undefined` is `true`). -/
def isOurTurn (s : ControllerState) : Bool :=
  match s.model.game with
  | none => false
  | some g =>
    if g.state.status ≠ GameStatus.IN_PROGRESS then false
    else s.ourPlayer == whoseTurn s

/-- The getter `get isPlayer()`:
`this._model.game?.state.x === this._townController.ourPlayer?.id || … o … || false`.
Both sides of each `===` are `string | undefined`. -/
def isPlayer (s : ControllerState) : Bool :=
  ((s.model.game.bind fun g => g.state.x) == (s.ourPlayer.map fun p => p.id))
  || ((s.model.game.bind fun g => g.state.o) == (s.ourPlayer.map fun p => p.id))

/-- The getter `get gamePiece()`: throws `PLAYER_NOT_IN_GAME_ERROR` when
`isPlayer` is false, otherwise returns `'X'` if
`this._townController.ourPlayer === this.x` (object identity, both sides may
be `undefined`) and `'O'` otherwise. -/
def gamePiece (s : ControllerState) : Except String GamePiece :=
  if !isPlayer s then
    Except.error PLAYER_NOT_IN_GAME_ERROR
  else
    Except.ok (if s.ourPlayer == x s then GamePiece.X else GamePiece.O)

/-- The getter `get status()`:
`this._model.game?.state.status || 'WAITING_TO_START'` (the status strings are
all non-empty, hence truthy, so only a missing game falls back). -/
def status (s : ControllerState) : GameStatus :=
  match s.model.game with
  | some g => g.state.status
  | none => GameStatus.WAITING_TO_START

/-- The method `isActive()`. -/
def isActive (s : ControllerState) : Bool :=
  status s == GameStatus.IN_PROGRESS

/-- Modelled from the spec: the base class `GameAreaController._updateFrom`
is not under src/ (the controller only calls `super._updateFrom(newModel)`).
Per the spec's update protocol, step 2, it replaces the current snapshot with
the new one and refreshes the externally-owned shared state (player roster /
occupant set), delegated to the external base functionality.  The refreshed
roster is passed in as `newPlayers`. -/
def superUpdateFrom (s : ControllerState) (newModel : GameArea)
    (newPlayers : List PlayerController) : ControllerState :=
  { s with model := newModel, players := newPlayers }

/-- The events a single `_updateFrom` call emits, in order, on each of the two
topics, together with the post-update controller state. -/
structure UpdateEmissions where
  state : ControllerState
  boardChanged : List Board
  turnChanged : List Bool

/-- The method `_updateFrom(newModel)`: record `oldBoard`/`oldTurn` from the
pre-update state, run `super._updateFrom`, recompute `newBoard`/`newTurn`, and
emit `boardChanged`/`turnChanged` on the respective differences.

The source compares the boards with
`JSON.stringify(oldBoard) !== JSON.stringify(newBoard)`; on a 3x3 array of
`'X' | 'O' | undefined` the serialization maps the three cell values to the
distinct JSON tokens `"X"`, `"O"` and `null`, so two boards serialize equally
exactly when they agree cell for cell, and the comparison is modelled as
board equality.  The turns are compared with `oldTurn !== newTurn` on
`string | undefined`, modelled as `Option String` equality. -/
def updateFrom (s : ControllerState) (newModel : GameArea)
    (newPlayers : List PlayerController) : UpdateEmissions :=
  let oldBoard : Board := board s
  let oldTurn : Option PlayerID := (whoseTurn s).map fun p => p.id
  let s2 : ControllerState := superUpdateFrom s newModel newPlayers
  let newBoard : Board := board s2
  let newTurn : Option PlayerID := (whoseTurn s2).map fun p => p.id
  { state := s2
    boardChanged := if oldBoard ≠ newBoard then [newBoard] else []
    turnChanged := if oldTurn ≠ newTurn then [isOurTurn s2] else [] }

/-- The payload of the `GameMove` interactable command `makeMove` builds. -/
structure GameMoveCommand where
  gameID : String
  movePiece : GamePiece
  row : Fin 3
  col : Fin 3
deriving DecidableEq, Repr

/-- A call to `this._townController.sendInteractableCommand(instanceID, cmd)`. -/
structure SentCommand where
  instanceID : String
  command : GameMoveCommand
deriving DecidableEq, Repr

/-- The method `makeMove(row, col)`: throws `NO_GAME_IN_PROGRESS_ERROR` when
`this._model.game` is falsy; throws `'Instance ID is undefined'` when
`this._instanceID` is falsy (undefined or the empty string); otherwise builds
the `GameMove` command — whose `move.gamePiece` field reads `this.gamePiece`,
which itself throws when the local player is not in the game — and hands it to
the command channel.  An `error` result means `sendInteractableCommand` is
never invoked. -/
def makeMove (s : ControllerState) (row col : Fin 3) : Except String SentCommand :=
  match s.model.game with
  | none => Except.error NO_GAME_IN_PROGRESS_ERROR
  | some g =>
    match s.instanceID with
    | none => Except.error ("Instance ID is undefined")
    | some iid =>
      if iid = "" then Except.error ("Instance ID is undefined")
      else
        match gamePiece s with
        | Except.error e => Except.error e
        | Except.ok piece =>
          Except.ok { instanceID := iid
                      command := { gameID := g.id, movePiece := piece
                                   row := row, col := col } }

end TicTacToeAreaController

/-- The piece left at `(r, c)` after replaying `moves` in order: the piece of
the last move that targets `(r, c)`, or empty when no move does.  This is the
specification-level description of the replay that the claim theorems compare
the `board` getter against. -/
def lastWrite (moves : List TicTacToeMove) (r c : Fin 3) : TicTacToeCell :=
  match moves.reverse.find? (fun m => m.row == r && m.col == c) with
  | some m => some m.gamePiece
  | none => none

/-! Concrete sample states used by the witness theorems. -/

def pAlice : PlayerController := { ref := 0, id := "alice" }

def pBob : PlayerController := { ref := 1, id := "bob" }

def pCarol : PlayerController := { ref := 2, id := "carol" }

def stateInProgress : TicTacToeGameState :=
  { moves := [], x := some ("alice"), o := some ("bob"), winner := none
    status := GameStatus.IN_PROGRESS }

def areaEmpty : GameArea := { game := none }

def gInProgress : GameInstance := { id := "g1", state := stateInProgress }

def areaInProgress : GameArea := { game := some gInProgress }

def mX00 : TicTacToeMove := { gamePiece := GamePiece.X, row := 0, col := 0 }

def mO00 : TicTacToeMove := { gamePiece := GamePiece.O, row := 0, col := 0 }

def gOneMove : GameInstance :=
  { id := "g1", state := { stateInProgress with moves := [mX00] } }

def areaOneMove : GameArea := { game := some gOneMove }

def gDupMoves : GameInstance :=
  { id := "g1", state := { stateInProgress with moves := [mX00, mO00] } }

def ctrlBase : ControllerState :=
  { model := areaInProgress, players := [pAlice, pBob]
    ourPlayer := some pAlice, instanceID := some ("i1") }

def ctrlNoGame : ControllerState :=
  { model := areaEmpty, players := [pAlice, pBob]
    ourPlayer := some pAlice, instanceID := some ("i1") }

def ctrlOneMove : ControllerState := { ctrlBase with model := areaOneMove }

def ctrlDupMoves : ControllerState :=
  { ctrlBase with model := { game := some gDupMoves } }

/-! Helper lemmas about `List.find?` and the board fold. -/

/-- `find?` returns `a` when `a` is a match and every match in the list is `a`. -/
theorem find?_eq_some_of_unique {α : Type} {p : α → Bool} {a : α} :
    ∀ {l : List α}, a ∈ l → p a = true → (∀ b ∈ l, p b = true → b = a) →
      l.find? p = some a
  | [], ha, _, _ => absurd ha (List.not_mem_nil a)
  | b :: l, ha, hpa, uniq => by
    cases hb : p b with
    | false =>
      have hal : a ∈ l := by
        rcases List.mem_cons.mp ha with h | h
        · rw [h] at hpa; rw [hpa] at hb; cases hb
        · exact h
      rw [List.find?_cons_of_neg _ (by simp [hb])]
      exact find?_eq_some_of_unique hal hpa
        (fun c hc hpc => uniq c (List.mem_cons_of_mem _ hc) hpc)
    | true =>
      have hba : b = a := uniq b (List.mem_cons_self b l) hb
      subst hba
      exact List.find?_cons_of_pos _ hb

/-- `find?` over a list with one element appended on the right. -/
theorem find?_append_singleton {α : Type} (p : α → Bool) (m : α) :
    ∀ l : List α, (l ++ [m]).find? p =
      (match l.find? p with
        | some a => some a
        | none => if p m then some m else none)
  | [] => by
    cases hm : p m <;> simp [List.find?, hm]
  | b :: l => by
    cases hb : p b with
    | false =>
      rw [List.cons_append, List.find?_cons_of_neg _ (by simp [hb]),
        List.find?_cons_of_neg _ (by simp [hb]), find?_append_singleton p m l]
    | true =>
      rw [List.cons_append, List.find?_cons_of_pos _ hb, List.find?_cons_of_pos _ hb]

/-- `find?` skips a prefix in which no element matches. -/
theorem find?_append_of_forall_neg {α : Type} {p : α → Bool} :
    ∀ {l1 : List α} (l2 : List α), (∀ a ∈ l1, p a = false) →
      (l1 ++ l2).find? p = l2.find? p
  | [], l2, _ => rfl
  | b :: l1, l2, h => by
    rw [List.cons_append,
      List.find?_cons_of_neg _ (by simp [h b (List.mem_cons_self b l1)])]
    exact find?_append_of_forall_neg l2 (fun a ha => h a (List.mem_cons_of_mem _ ha))

/-- The cell the replay fold leaves at `(r, c)`: the piece of the last move
targeting that cell, or the initial content when no move targets it. -/
theorem foldl_writeCell_eq_lastWrite (r c : Fin 3) :
    ∀ (moves : List TicTacToeMove) (b : Board),
      (moves.foldl (fun b m => writeCell b m.row m.col (some m.gamePiece)) b) r c =
        (match moves.reverse.find? (fun m => m.row == r && m.col == c) with
          | some m => some m.gamePiece
          | none => b r c)
  | [], b => by simp
  | m :: ms, b => by
    rw [List.foldl_cons, foldl_writeCell_eq_lastWrite r c ms _, List.reverse_cons,
      find?_append_singleton]
    cases h : ms.reverse.find? (fun m => m.row == r && m.col == c) with
    | some m2 => rfl
    | none =>
      by_cases hrc : m.row = r ∧ m.col = c
      · simp [writeCell, hrc.1, hrc.2]
      · have hx : (m.row == r && m.col == c) = false := by
          rcases not_and_or.mp hrc with h1 | h1 <;> simp [h1]
        have hy : ¬(r = m.row ∧ c = m.col) := by
          intro hcon; exact hrc ⟨hcon.1.symm, hcon.2.symm⟩
        simp [writeCell, hx, hy]

open TicTacToeAreaController

/-- Two roster entries with the same id are the same object when the roster's
ids are duplicate-free. -/
theorem roster_eq_of_id_eq {l : List PlayerController} {a b : PlayerController}
    (hnd : (l.map fun q => q.id).Nodup) (ha : a ∈ l) (hb : b ∈ l)
    (h : a.id = b.id) : a = b :=
  List.inj_on_of_nodup_map hnd ha hb h

/-- The `board` getter computes exactly the last write at every cell. -/
theorem board_eq_lastWrite {s : ControllerState} {g : GameInstance}
    (hg : s.model.game = some g) (r c : Fin 3) :
    board s r c = lastWrite g.state.moves r c := by
  have hb : board s =
      g.state.moves.foldl
        (fun b m => writeCell b m.row m.col (some m.gamePiece)) emptyBoard := by
    simp only [board, hg]
  rw [hb, foldl_writeCell_eq_lastWrite, lastWrite]
  cases h : g.state.moves.reverse.find? (fun m => m.row == r && m.col == c) with
  | some m2 => rfl
  | none => rfl

/-- With no game attached, the `board` getter is the empty grid. -/
theorem board_no_game {s : ControllerState} (hg : s.model.game = none) :
    board s = emptyBoard := by
  simp only [board, hg]
  rfl

/-- C3: the `board` query returns the grid obtained by replaying the moves in
order over an all-empty 3x3 grid — each cell holds the piece of the last move
written there (a later move overwrites an earlier one targeting the same
cell), every cell not targeted by any move is empty, and the derivation is
deterministic (reading `board` twice from the same model yields identical
grids, immediate since the embedding is a pure function of the state). -/
theorem claim_C3_board_replay (s : ControllerState) (g : GameInstance)
    (hg : s.model.game = some g) :
    (∀ r c : Fin 3, board s r c = lastWrite g.state.moves r c)
    ∧ (∀ r c : Fin 3, (∀ m ∈ g.state.moves, ¬(m.row = r ∧ m.col = c)) →
        board s r c = none)
    ∧ board s = board s := by
  refine ⟨fun r c => board_eq_lastWrite hg r c, fun r c h => ?_, rfl⟩
  rw [board_eq_lastWrite hg r c]
  unfold lastWrite
  have hfind : g.state.moves.reverse.find? (fun m => m.row == r && m.col == c)
      = none := by
    rw [List.find?_eq_none]
    intro m hm hbeq
    have hm2 : m ∈ g.state.moves := List.mem_reverse.mp hm
    have hrc : m.row = r ∧ m.col = c := by
      constructor
      · exact beq_iff_eq.mp (Bool.and_elim_left hbeq)
      · exact beq_iff_eq.mp (Bool.and_elim_right hbeq)
    exact h m hm2 hrc
  rw [hfind]

/-- Witness for C3 at a concrete one-move snapshot. -/
theorem claim_C3_witness :
    ctrlOneMove.model.game = some gOneMove
    ∧ board ctrlOneMove 0 0 = lastWrite gOneMove.state.moves 0 0
    ∧ board ctrlOneMove 1 1 = none :=
  ⟨rfl, (claim_C3_board_replay ctrlOneMove gOneMove rfl).1 0 0,
    (claim_C3_board_replay ctrlOneMove gOneMove rfl).2.1 1 1 (by decide)⟩

/-- C9: the board derivation is total (the embedding `board` is a total Lean
function for every moves list, so it has no failure path), and when several
moves target the same cell the later one overwrites the earlier: if `m` is
the last move of the sequence targeting its cell, the derived board holds
`m`'s piece there. -/
theorem claim_C9_board_overwrite (s : ControllerState) (g : GameInstance)
    (pre post : List TicTacToeMove) (m : TicTacToeMove)
    (hg : s.model.game = some g)
    (hmoves : g.state.moves = pre ++ m :: post)
    (hpost : ∀ m2 ∈ post, ¬(m2.row = m.row ∧ m2.col = m.col)) :
    board s m.row m.col = some m.gamePiece := by
  have hneg : ∀ a ∈ post.reverse,
      (a.row == m.row && a.col == m.col) = false := by
    intro a ha
    have hna := hpost a (List.mem_reverse.mp ha)
    rcases not_and_or.mp hna with h1 | h1 <;> simp [h1]
  have hfind : (pre ++ m :: post).reverse.find?
      (fun m2 => m2.row == m.row && m2.col == m.col) = some m := by
    rw [List.reverse_append, List.reverse_cons, List.append_assoc,
      find?_append_of_forall_neg _ hneg, List.singleton_append]
    exact List.find?_cons_of_pos _ (by simp)
  rw [board_eq_lastWrite hg]
  unfold lastWrite
  rw [hmoves, hfind]

/-- Witness for C9: two moves on the same cell, the later one wins. -/
theorem claim_C9_witness :
    board ctrlDupMoves mO00.row mO00.col = some mO00.gamePiece :=
  claim_C9_board_overwrite ctrlDupMoves gDupMoves [mX00] [] mO00 rfl rfl
    (by decide)

/-- C4: `whoseTurn` returns the roster player holding role X when the game is
`IN_PROGRESS` and `moves.length` is even, the roster player holding role O
when it is odd, and `undefined` whenever the status is not `IN_PROGRESS`.
(The roster hypotheses say the role holder is a known player with a
duplicate-free, truthy id, which is what "the player holding role X" means
for the roster scan in the source.) -/
theorem claim_C4_whoseTurn (s : ControllerState) (g : GameInstance)
    (p : PlayerController) :
    (status s ≠ GameStatus.IN_PROGRESS → whoseTurn s = none)
    ∧ (s.model.game = some g → g.state.status = GameStatus.IN_PROGRESS →
        p ∈ s.players → (s.players.map fun q => q.id).Nodup → p.id ≠ "" →
        moveCount s % 2 = 0 → g.state.x = some p.id →
        whoseTurn s = some p)
    ∧ (s.model.game = some g → g.state.status = GameStatus.IN_PROGRESS →
        p ∈ s.players → (s.players.map fun q => q.id).Nodup → p.id ≠ "" →
        moveCount s % 2 ≠ 0 → g.state.o = some p.id →
        whoseTurn s = some p) := by
  refine ⟨?_, ?_, ?_⟩
  · intro hst
    unfold whoseTurn
    cases hg : s.model.game with
    | none => rfl
    | some g2 =>
      have hne : ¬(g2.state.status = GameStatus.IN_PROGRESS) := by
        intro h
        apply hst
        simp only [status, hg, h]
      dsimp only
      rw [if_neg hne]
  · intro hg hst hmem hnd hpid heven hx
    unfold whoseTurn
    rw [hg]
    dsimp only
    rw [if_pos hst]
    apply find?_eq_some_of_unique hmem
    · simp [heven, hx, strTruthy, hpid]
    · intro b hb hpb
      simp [heven, hx, strTruthy, hpid] at hpb
      exact roster_eq_of_id_eq hnd hb hmem hpb
  · intro hg hst hmem hnd hpid hodd ho
    unfold whoseTurn
    rw [hg]
    dsimp only
    rw [if_pos hst]
    apply find?_eq_some_of_unique hmem
    · simp [Nat.mod_two_ne_zero.mp hodd, ho, strTruthy, hpid]
    · intro b hb hpb
      simp [Nat.mod_two_ne_zero.mp hodd, ho, strTruthy, hpid] at hpb
      exact roster_eq_of_id_eq hnd hb hmem hpb

/-- Witness for C4: no owner without a game; X's owner on an even count; O's
owner on an odd count. -/
theorem claim_C4_witness :
    whoseTurn ctrlNoGame = none
    ∧ whoseTurn ctrlBase = some pAlice
    ∧ whoseTurn ctrlOneMove = some pBob :=
  ⟨(claim_C4_whoseTurn ctrlNoGame gInProgress pAlice).1 (by decide),
   (claim_C4_whoseTurn ctrlBase gInProgress pAlice).2.1 rfl rfl (by decide)
     (by decide) (by decide) (by decide) rfl,
   (claim_C4_whoseTurn ctrlOneMove gOneMove pBob).2.2 rfl rfl (by decide)
     (by decide) (by decide) (by decide) rfl⟩

/-- C7: `isOurTurn` is true exactly when the status is `IN_PROGRESS` and the
local player is the player `whoseTurn` returns; in particular it is false
whenever the status is not `IN_PROGRESS`. -/
theorem claim_C7_isOurTurn (s : ControllerState) :
    isOurTurn s = true ↔
      (status s = GameStatus.IN_PROGRESS ∧ whoseTurn s = s.ourPlayer) := by
  cases hg : s.model.game with
  | none =>
    simp [isOurTurn, status, hg]
  | some g =>
    by_cases hst : g.state.status = GameStatus.IN_PROGRESS
    · simp only [isOurTurn, status, hg, hst]
      constructor
      · intro h
        refine ⟨trivial, ?_⟩
        have hb : (s.ourPlayer == whoseTurn s) = true := by
          simpa using h
        exact (beq_iff_eq.mp hb).symm
      · intro h
        simp [h.2]
    · simp [isOurTurn, status, hg, hst]

/-- The `x` getter resolves to the local player when the local player is on
the roster, the roster ids are duplicate-free and role X is the local id. -/
theorem x_eq_our {s : ControllerState} {g : GameInstance} {p : PlayerController}
    (hg : s.model.game = some g) (hmem : p ∈ s.players)
    (hnd : (s.players.map fun q => q.id).Nodup) (hx : g.state.x = some p.id) :
    x s = some p := by
  unfold x
  apply find?_eq_some_of_unique hmem
  · simp [hg, hx]
  · intro b hb hpb
    simp [hg, hx] at hpb
    exact roster_eq_of_id_eq hnd hb hmem hpb.symm

/-- When role X is not the local id, the `x` getter never resolves to the
local player. -/
theorem x_ne_our {s : ControllerState} {g : GameInstance} {p : PlayerController}
    (hg : s.model.game = some g) (hxne : g.state.x ≠ some p.id) :
    (s.ourPlayer == x s) = false ∨ s.ourPlayer ≠ some p := by
  by_cases hour : s.ourPlayer = some p
  · left
    cases hxs : x s with
    | none => simp [hour]
    | some q =>
      have hpred := List.find?_some hxs
      simp only [hg, Option.some_bind] at hpred
      have hxq : g.state.x = some q.id := beq_iff_eq.mp hpred
      have hpq : p ≠ q := by
        intro h
        rw [h] at hxne
        exact hxne hxq
      simp [hour, hpq]
  · right; exact hour

/-- C5: when the local player is a player in the game, `gamePiece` returns
`'X'` when the snapshot's `x` field is the local player's id and `'O'` when
the snapshot's `o` field is the local player's id (the local player holds at
most one role, so the `'O'` case assumes role X is someone else's). -/
theorem claim_C5_gamePiece_role (s : ControllerState) (g : GameInstance)
    (p : PlayerController) (hg : s.model.game = some g)
    (hour : s.ourPlayer = some p) (hmem : p ∈ s.players)
    (hnd : (s.players.map fun q => q.id).Nodup) :
    (g.state.x = some p.id → gamePiece s = Except.ok GamePiece.X)
    ∧ (g.state.o = some p.id → g.state.x ≠ some p.id →
        gamePiece s = Except.ok GamePiece.O) := by
  constructor
  · intro hx
    have hisp : isPlayer s = true := by
      simp [isPlayer, hg, hour, hx]
    have hxs : x s = some p := x_eq_our hg hmem hnd hx
    unfold gamePiece
    rw [hisp, hour, hxs]
    simp
  · intro ho hxne
    have hisp : isPlayer s = true := by
      simp [isPlayer, hg, hour, ho]
    have hxs : (s.ourPlayer == x s) = false := by
      rcases x_ne_our hg hxne with h | h
      · exact h
      · exact absurd hour h
    unfold gamePiece
    rw [hisp, hxs]
    simp

/-- Witness for C5 at concrete states for both roles. -/
theorem claim_C5_witness :
    gamePiece ctrlBase = Except.ok GamePiece.X
    ∧ gamePiece { ctrlBase with ourPlayer := some pBob } = Except.ok GamePiece.O :=
  ⟨(claim_C5_gamePiece_role ctrlBase gInProgress pAlice rfl rfl (by decide)
      (by decide)).1 rfl,
   (claim_C5_gamePiece_role { ctrlBase with ourPlayer := some pBob } gInProgress
      pBob rfl rfl (by decide) (by decide)).2 rfl (by decide)⟩

/-- C6: `gamePiece` throws `PLAYER_NOT_IN_GAME_ERROR` exactly when the local
player's id matches neither the snapshot's `x` field nor its `o` field. -/
theorem claim_C6_gamePiece_error_iff (s : ControllerState) (g : GameInstance)
    (p : PlayerController) (hg : s.model.game = some g)
    (hour : s.ourPlayer = some p) :
    gamePiece s = Except.error PLAYER_NOT_IN_GAME_ERROR ↔
      ¬(g.state.x = some p.id ∨ g.state.o = some p.id) := by
  have hisp : isPlayer s =
      ((g.state.x == some p.id) || (g.state.o == some p.id)) := by
    simp [isPlayer, hg, hour]
  unfold gamePiece
  rw [hisp]
  cases hb : ((g.state.x == some p.id) || (g.state.o == some p.id)) with
  | true =>
    have hor : g.state.x = some p.id ∨ g.state.o = some p.id := by
      simpa using hb
    simp [hor]
  | false =>
    have hnor : ¬(g.state.x = some p.id ∨ g.state.o = some p.id) := by
      simpa using hb
    simp [hnor, PLAYER_NOT_IN_GAME_ERROR]

/-- Witness for C6: a spectator's `gamePiece` read throws. -/
theorem claim_C6_witness :
    gamePiece { ctrlBase with ourPlayer := some pCarol } =
      Except.error PLAYER_NOT_IN_GAME_ERROR :=
  (claim_C6_gamePiece_error_iff { ctrlBase with ourPlayer := some pCarol }
    gInProgress pCarol rfl rfl).mpr (by decide)

/-- C1: one `_updateFrom` call emits exactly one `boardChanged` notification,
carrying the new derived board, exactly when the old and new derived boards
differ position-wise in at least one cell; when the two derived boards are
cell-for-cell identical (for example an update that only changes the occupant
list) no `boardChanged` notification is emitted. -/
theorem claim_C1_update_boardChanged (s : ControllerState) (nm : GameArea)
    (np : List PlayerController) :
    ((∃ r c : Fin 3, board s r c ≠ board (updateFrom s nm np).state r c) →
      (updateFrom s nm np).boardChanged = [board (updateFrom s nm np).state])
    ∧ ((∀ r c : Fin 3, board s r c = board (updateFrom s nm np).state r c) →
      (updateFrom s nm np).boardChanged = [])
    ∧ (updateFrom s nm np).boardChanged.length ≤ 1 := by
  have hst : (updateFrom s nm np).state = superUpdateFrom s nm np := rfl
  have hbc : (updateFrom s nm np).boardChanged =
      (if board s ≠ board (superUpdateFrom s nm np)
        then [board (superUpdateFrom s nm np)] else []) := rfl
  refine ⟨?_, ?_, ?_⟩
  · intro h
    have hne : board s ≠ board (superUpdateFrom s nm np) := by
      intro heq
      obtain ⟨r, c, hrc⟩ := h
      rw [hst] at hrc
      exact hrc (congrFun (congrFun heq r) c)
    rw [hbc, if_pos hne, hst]
  · intro h
    have heq : board s = board (superUpdateFrom s nm np) := by
      funext r c
      have hrc := h r c
      rw [hst] at hrc
      exact hrc
    rw [hbc, if_neg (not_not_intro heq)]
  · rw [hbc]
    by_cases hne : board s ≠ board (superUpdateFrom s nm np)
    · rw [if_pos hne]; simp
    · rw [if_neg hne]; simp

/-- Witness for C1: an update appending one move fires the event with the new
board; an update repeating the same model fires nothing. -/
theorem claim_C1_witness :
    ((∃ r c : Fin 3, board ctrlBase r c ≠
        board (updateFrom ctrlBase areaOneMove [pAlice, pBob]).state r c)
      ∧ (updateFrom ctrlBase areaOneMove [pAlice, pBob]).boardChanged =
          [board (updateFrom ctrlBase areaOneMove [pAlice, pBob]).state])
    ∧ (updateFrom ctrlBase areaInProgress [pAlice, pBob]).boardChanged = [] :=
  ⟨⟨by decide,
    (claim_C1_update_boardChanged ctrlBase areaOneMove [pAlice, pBob]).1
      (by decide)⟩,
   (claim_C1_update_boardChanged ctrlBase areaInProgress [pAlice, pBob]).2.1
      (by decide)⟩

/-- C2: one `_updateFrom` call emits exactly one `turnChanged` notification,
carrying the boolean `isOurTurn` of the post-update state (not the player
identity), exactly when the resolved turn-owner identifier differs between
the pre-update and post-update states — including `undefined`-to-someone and
someone-to-`undefined` transitions — and emits nothing when the owner stays
the same; the `boardChanged` and `turnChanged` channels each fire at most
once per update. -/
theorem claim_C2_update_turnChanged (s : ControllerState) (nm : GameArea)
    (np : List PlayerController) :
    (((whoseTurn s).map (fun q => q.id) ≠
        (whoseTurn (updateFrom s nm np).state).map (fun q => q.id)) →
      (updateFrom s nm np).turnChanged = [isOurTurn (updateFrom s nm np).state])
    ∧ (((whoseTurn s).map (fun q => q.id) =
        (whoseTurn (updateFrom s nm np).state).map (fun q => q.id)) →
      (updateFrom s nm np).turnChanged = [])
    ∧ (updateFrom s nm np).turnChanged.length ≤ 1
    ∧ (updateFrom s nm np).boardChanged.length ≤ 1 := by
  have hst : (updateFrom s nm np).state = superUpdateFrom s nm np := rfl
  have htc : (updateFrom s nm np).turnChanged =
      (if (whoseTurn s).map (fun q => q.id) ≠
          (whoseTurn (superUpdateFrom s nm np)).map (fun q => q.id)
        then [isOurTurn (superUpdateFrom s nm np)] else []) := rfl
  have hbc : (updateFrom s nm np).boardChanged =
      (if board s ≠ board (superUpdateFrom s nm np)
        then [board (superUpdateFrom s nm np)] else []) := rfl
  refine ⟨?_, ?_, ?_, ?_⟩
  · intro h
    rw [hst] at h
    rw [htc, if_pos h, hst]
  · intro h
    rw [hst] at h
    rw [htc, if_neg (not_not_intro h)]
  · rw [htc]
    by_cases hne : (whoseTurn s).map (fun q => q.id) ≠
        (whoseTurn (superUpdateFrom s nm np)).map (fun q => q.id)
    · rw [if_pos hne]; simp
    · rw [if_neg hne]; simp
  · rw [hbc]
    by_cases hne : board s ≠ board (superUpdateFrom s nm np)
    · rw [if_pos hne]; simp
    · rw [if_neg hne]; simp

/-- Witness for C2: the appended move flips the owner from X's player to O's
player, firing the event with the post-update `isOurTurn`; repeating the same
model fires nothing. -/
theorem claim_C2_witness :
    (((whoseTurn ctrlBase).map (fun q => q.id) ≠
        (whoseTurn (updateFrom ctrlBase areaOneMove [pAlice, pBob]).state).map
          (fun q => q.id))
      ∧ (updateFrom ctrlBase areaOneMove [pAlice, pBob]).turnChanged =
          [isOurTurn (updateFrom ctrlBase areaOneMove [pAlice, pBob]).state])
    ∧ (updateFrom ctrlBase areaInProgress [pAlice, pBob]).turnChanged = [] :=
  ⟨⟨by decide,
    (claim_C2_update_turnChanged ctrlBase areaOneMove [pAlice, pBob]).1
      (by decide)⟩,
   (claim_C2_update_turnChanged ctrlBase areaInProgress [pAlice, pBob]).2.1
      (by decide)⟩

/-- C8: with no game attached, `makeMove` fails with
`NO_GAME_IN_PROGRESS_ERROR` (and, the result being an error, the command
channel is never invoked); with a game but no attached instance id it fails
with the distinct internal-contract error `'Instance ID is undefined'`. -/
theorem claim_C8_makeMove_errors (s : ControllerState) (row col : Fin 3) :
    (s.model.game = none →
      makeMove s row col = Except.error NO_GAME_IN_PROGRESS_ERROR)
    ∧ (∀ g : GameInstance, s.model.game = some g → s.instanceID = none →
      makeMove s row col = Except.error ("Instance ID is undefined"))
    ∧ ("Instance ID is undefined" : String) ≠ NO_GAME_IN_PROGRESS_ERROR := by
  refine ⟨?_, ?_, by decide⟩
  · intro h
    unfold makeMove
    rw [h]
  · intro g hg hi
    unfold makeMove
    rw [hg]
    dsimp only
    rw [hi]

/-- Witness for C8: both error paths at concrete states. -/
theorem claim_C8_witness :
    makeMove ctrlNoGame 0 0 = Except.error NO_GAME_IN_PROGRESS_ERROR
    ∧ makeMove { ctrlBase with instanceID := none } 1 2 =
        Except.error ("Instance ID is undefined") :=
  ⟨(claim_C8_makeMove_errors ctrlNoGame 0 0).1 rfl,
   (claim_C8_makeMove_errors { ctrlBase with instanceID := none } 1 2).2.1
      gInProgress rfl rfl⟩

/-- C10: when a game and a truthy instance id are attached but the local
player is not a player in the game, `makeMove` fails with
`PLAYER_NOT_IN_GAME_ERROR`, raised by its internal read of `gamePiece` while
building the command — so the command channel is never invoked. -/
theorem claim_C10_makeMove_not_in_game (s : ControllerState) (row col : Fin 3)
    (g : GameInstance) (iid : String) (hg : s.model.game = some g)
    (hi : s.instanceID = some iid) (hiid : ¬(iid = ""))
    (hnp : isPlayer s = false) :
    makeMove s row col = Except.error PLAYER_NOT_IN_GAME_ERROR := by
  have hgp : gamePiece s = Except.error PLAYER_NOT_IN_GAME_ERROR := by
    unfold gamePiece
    rw [hnp]
    rfl
  unfold makeMove
  rw [hg]
  dsimp only
  rw [hi]
  dsimp only
  rw [if_neg hiid, hgp]

/-- Witness for C10: a spectator's `makeMove` fails with the player error. -/
theorem claim_C10_witness :
    makeMove { ctrlBase with ourPlayer := some pCarol } 1 2 =
      Except.error PLAYER_NOT_IN_GAME_ERROR :=
  claim_C10_makeMove_not_in_game { ctrlBase with ourPlayer := some pCarol } 1 2
    gInProgress "i1" rfl rfl (by decide) (by decide)
